import Mathlib

/-!
Shallow embedding of the viewer core of swayimg (`src/viewer.c`) and proofs
about it.  Machine arithmetic is modelled exactly: C `double`/`float`
expressions become exact rationals (`ℚ`), `ssize_t` values become `ℤ`,
`size_t` values become `ℕ`.  A C conversion from a floating value to
`ssize_t` truncates toward zero; this is `truncQ` below.  C `ssize_t`
division truncates toward zero; this is `Int.tdiv`.  External collaborators
(window host, image list, fetcher) enter as explicit parameters: the window
dimensions and the current frame's pixmap dimensions are an `Env`, the image
list queries and the open oracle are an `ImageList` and a `ℕ → Bool`
predicate.  Fields of `struct viewer` not touched by any property proved
here (background colors, anti-aliasing mode, timer file descriptors) are
omitted from the `Viewer` record; the animation timer is modelled by the
standalone `animation_ctl` below.
-/

/-- Truncation of a rational toward zero, the semantics of a C conversion
from `double` to `ssize_t`. -/
def truncQ (q : ℚ) : ℤ := if 0 ≤ q then ⌊q⌋ else ⌈q⌉

/-- Scaling operations, `enum fixed_scale` in viewer.c (the six names
"optimal", "fit", "width", "height", "fill", "real", in declaration
order). -/
inductive FixedScale where
  | fit_optimal  -- fit to window, but not more than 100%
  | fit_window   -- fit to window size
  | fit_width    -- fit width to window width
  | fit_height   -- fit height to window height
  | fill_window  -- fill the window
  | real_size    -- real image size (100%)
deriving DecidableEq

/-- Successor in the declaration order with wraparound: the effect of
`ctx.scale_init++` followed by the reset to `0` at `ARRAY_SIZE(scale_names)`
in `scale_image`. -/
def FixedScale.next : FixedScale → FixedScale
  | .fit_optimal => .fit_window
  | .fit_window => .fit_width
  | .fit_width => .fit_height
  | .fit_height => .fill_window
  | .fill_window => .real_size
  | .real_size => .fit_optimal

/-- The nine anchors, `enum position` in viewer.c. -/
inductive ViewPos where
  | top
  | center
  | bottom
  | left
  | right
  | top_left
  | top_right
  | bottom_left
  | bottom_right
deriving DecidableEq

/-- Inputs read from external collaborators by the viewer operations:
window size (`ui_get_width`/`ui_get_height`) and the pixmap size of the
current frame (`fetcher_current()->frames[ctx.frame].pm`). -/
structure Env where
  wndW : ℕ
  wndH : ℕ
  pmW : ℕ
  pmH : ℕ
deriving DecidableEq

/-- The viewer context, `struct viewer` in viewer.c (the fields the proved
properties depend on). -/
structure Viewer where
  img_x : ℤ
  img_y : ℤ
  img_w : ℤ
  img_h : ℤ
  frame : ℕ
  fixed : Bool
  scale_init : FixedScale
  keep_zoom : Bool
  position : ViewPos
  scale : ℚ
deriving DecidableEq

/-- Translation of `fixup_position` (viewer.c lines 115-216): per-axis
anchored recompute gated by `force` or fixed mode, the fixed-mode re-snap
to the window border, and the unconditional off-window clamps, applied in
source order. -/
def fixup_position (force : Bool) (env : Env) (ctx : Viewer) : Viewer :=
  let wnd_width : ℤ := env.wndW
  let wnd_height : ℤ := env.wndH
  let img_width : ℤ := truncQ (ctx.scale * env.pmW)
  let img_height : ℤ := truncQ (ctx.scale * env.pmH)
  let x0 : ℤ :=
    if force = true ∨ (ctx.fixed = true ∧ img_width ≤ wnd_width) then
      match ctx.position with
      | .top => Int.tdiv wnd_width 2 - Int.tdiv img_width 2
      | .center => Int.tdiv wnd_width 2 - Int.tdiv img_width 2
      | .bottom => Int.tdiv wnd_width 2 - Int.tdiv img_width 2
      | .left => 0
      | .right => wnd_width - img_width
      | .top_left => 0
      | .top_right => wnd_width - img_width
      | .bottom_left => 0
      | .bottom_right => wnd_width - img_width
    else ctx.img_x
  let y0 : ℤ :=
    if force = true ∨ (ctx.fixed = true ∧ img_height ≤ wnd_height) then
      match ctx.position with
      | .top => 0
      | .center => Int.tdiv wnd_height 2 - Int.tdiv img_height 2
      | .bottom => wnd_height - img_height
      | .left => Int.tdiv wnd_height 2 - Int.tdiv img_height 2
      | .right => Int.tdiv wnd_height 2 - Int.tdiv img_height 2
      | .top_left => 0
      | .top_right => 0
      | .bottom_left => wnd_height - img_height
      | .bottom_right => wnd_height - img_height
    else ctx.img_y
  -- bind to window border (fixed mode)
  let x1 : ℤ :=
    if ctx.fixed = true ∧ 0 < x0 ∧ wnd_width < x0 + img_width then 0 else x0
  let y1 : ℤ :=
    if ctx.fixed = true ∧ 0 < y0 ∧ wnd_height < y0 + img_height then 0 else y0
  let x2 : ℤ :=
    if ctx.fixed = true ∧ x1 < 0 ∧ x1 + img_width < wnd_width then
      wnd_width - img_width
    else x1
  let y2 : ℤ :=
    if ctx.fixed = true ∧ y1 < 0 ∧ y1 + img_height < wnd_height then
      wnd_height - img_height
    else y1
  -- don't let canvas to be far out of window
  let x3 : ℤ := if x2 + img_width < 0 then -img_width else x2
  let x4 : ℤ := if wnd_width < x3 then wnd_width else x3
  let y3 : ℤ := if y2 + img_height < 0 then -img_height else y2
  let y4 : ℤ := if wnd_height < y3 then wnd_height else y3
  { ctx with img_x := x4, img_y := y4 }

/-- The scale factor computed by `set_scale` (viewer.c lines 279-310):
`scale_w = 1.0 / (pm->width / wnd_width)`, `scale_h` likewise, then the
switch over the six policies. -/
def scale_for (sc : FixedScale) (env : Env) : ℚ :=
  let scale_w : ℚ := 1 / ((env.pmW : ℚ) / (env.wndW : ℚ))
  let scale_h : ℚ := 1 / ((env.pmH : ℚ) / (env.wndH : ℚ))
  match sc with
  | .fit_optimal =>
      let s := min scale_w scale_h
      if 1 < s then 1 else s
  | .fit_window => min scale_w scale_h
  | .fit_width => scale_w
  | .fit_height => scale_h
  | .fill_window => max scale_w scale_h
  | .real_size => 1

/-- Translation of `set_scale` (viewer.c lines 279-314): store the policy's
scale factor, then force a full position fixup. -/
def set_scale (env : Env) (sc : FixedScale) (ctx : Viewer) : Viewer :=
  fixup_position true env { ctx with scale := scale_for sc env }

/-- Modelled from the spec: classification of an action's parameter string.
The parsing helpers `str_index` and `str_to_num` live outside `src/`
(array.c); per the spec's parameter grammar a string is a scale-policy
name, a signed integer, empty, or garbage, and `str_index` succeeds exactly
on the policy names while `str_to_num` succeeds exactly on the integers. -/
inductive Param where
  | null
  | emptyStr
  | policy (sc : FixedScale)
  | number (n : ℤ)
  | garbage
deriving DecidableEq

/-- Translation of `scale_image` (viewer.c lines 320-342): named parameter
sets the policy, empty or missing parameter cycles it, an unrecognized name
reports an error (the returned flag) and leaves the context unchanged;
otherwise `set_scale` is applied to the stored policy. -/
def scale_image (env : Env) (params : Param) (ctx : Viewer) : Viewer × Bool :=
  match params with
  | .policy sc =>
      let ctx := { ctx with scale_init := sc }
      (set_scale env ctx.scale_init ctx, false)
  | .null | .emptyStr =>
      -- toggle to the next scale
      let ctx := { ctx with scale_init := ctx.scale_init.next }
      (set_scale env ctx.scale_init ctx, false)
  | _ => (ctx, true)

/-- The image-space x coordinate under the window center,
`center_x = wnd_half_w / scale - img_x / scale` in `zoom_image`. -/
def center_img_x (env : Env) (ctx : Viewer) : ℚ :=
  (env.wndW : ℚ) / 2 / ctx.scale - (ctx.img_x : ℚ) / ctx.scale

/-- The image-space y coordinate under the window center. -/
def center_img_y (env : Env) (ctx : Viewer) : ℚ :=
  (env.wndH : ℚ) / 2 / ctx.scale - (ctx.img_y : ℚ) / ctx.scale

/-- The percentage branch of `zoom_image` (viewer.c lines 363-389) before
its final fixup: compute the pivot in image space, update the scale with
the `MAX_SCALE = 100.0` cap (positive percent) or the
`MIN_SCALE = 10` pixel lower bound (negative percent), then restore the
center, truncating the new position to `ssize_t`. -/
def zoom_apply (env : Env) (percent : ℤ) (ctx : Viewer) : Viewer :=
  let wnd_half_w : ℚ := (env.wndW : ℚ) / 2
  let wnd_half_h : ℚ := (env.wndH : ℚ) / 2
  let step : ℚ := ctx.scale / 100 * (percent : ℚ)
  let center_x : ℚ := center_img_x env ctx
  let center_y : ℚ := center_img_y env ctx
  let scale1 : ℚ :=
    if 0 < percent then
      let s := ctx.scale + step
      if 100 < s then 100 else s
    else
      let scale_w : ℚ := 10 / (env.pmW : ℚ)
      let scale_h : ℚ := 10 / (env.pmH : ℚ)
      let scale_min : ℚ := max scale_w scale_h
      let s := ctx.scale + step
      if s < scale_min then scale_min else s
  { ctx with
      scale := scale1,
      img_x := truncQ (wnd_half_w - center_x * scale1),
      img_y := truncQ (wnd_half_h - center_y * scale1) }

/-- Translation of `zoom_image` (viewer.c lines 348-397): a policy name
delegates to `set_scale`; a nonzero percent in `(-1000, 1000)` zooms with
pivot restoration and a non-forced fixup; a missing or empty parameter is a
no-op; anything else reports an error (the returned flag) and changes
nothing. -/
def zoom_image (env : Env) (params : Param) (ctx : Viewer) : Viewer × Bool :=
  match params with
  | .null | .emptyStr => (ctx, false)
  | .policy sc => (set_scale env sc ctx, false)
  | .number n =>
      if n ≠ 0 ∧ -1000 < n ∧ n < 1000 then
        (fixup_position false env (zoom_apply env n ctx), false)
      else (ctx, true)
  | .garbage => (ctx, true)

/-- The step-parameter handling at the top of `move_image` (viewer.c lines
230-237): the step in percent and whether an invalid-step error was printed
to stderr.  A missing parameter keeps the default 10 silently; a numeric
parameter in `[1, 1000]` is accepted; anything else is reported and the
default 10 is kept. -/
def move_step_err (params : Param) : ℤ × Bool :=
  match params with
  | .null => (10, false)
  | .number n => if 0 < n ∧ n ≤ 1000 then (n, false) else (10, true)
  | _ => (10, true)

/-- Translation of `move_image` (viewer.c lines 224-254): an invalid step
parameter (non-numeric or outside `[1, 1000]`) is reported (the returned
flag) and the default step of 10% is used; the position then moves by
`(window / 100) * step` on the chosen axis, followed by a non-forced
fixup. -/
def move_image (env : Env) (horizontal positive : Bool) (params : Param)
    (ctx : Viewer) : Viewer × Bool :=
  let stepErr : ℤ × Bool := move_step_err params
  let step : ℤ := if positive then stepErr.1 else -stepErr.1
  let moved : Viewer :=
    if horizontal then
      { ctx with img_x := ctx.img_x + Int.tdiv (env.wndW : ℤ) 100 * step }
    else
      { ctx with img_y := ctx.img_y + Int.tdiv (env.wndH : ℤ) 100 * step }
  (fixup_position false env moved, stepErr.2)

/-- Navigation direction, the subset of `enum action_type` handled by
`next_image`. -/
inductive NavDir where
  | first_file
  | last_file
  | prev_dir
  | next_dir
  | prev_file
  | next_file
  | rand_file
deriving DecidableEq

/-- The image-list collaborator (imagelist.c, outside `src/`): each query
returns a candidate index or the exhaustion sentinel `IMGLIST_INVALID`,
modelled as `none`. -/
structure ImageList where
  first : Option ℕ
  last : Option ℕ
  next_file : ℕ → Option ℕ
  prev_file : ℕ → Option ℕ
  next_dir : ℕ → Option ℕ
  prev_dir : ℕ → Option ℕ
  rand_file : ℕ → Option ℕ
  skip : ℕ → Option ℕ

/-- One arm of the `switch` in `next_image`: the candidate produced for a
direction from the current index. -/
def nav_candidate (lst : ImageList) (dir : NavDir) (index : ℕ) : Option ℕ :=
  match dir with
  | .first_file => lst.first
  | .last_file => lst.last
  | .prev_dir => lst.prev_dir index
  | .next_dir => lst.next_dir index
  | .prev_file => lst.prev_file index
  | .next_file => lst.next_file index
  | .rand_file => lst.rand_file index

/-- The direction reassignment inside the `switch` of `next_image`:
`first_file` continues as `next_file` (look forward in case the first file
fails to load), `last_file` continues as `prev_file`; every other
direction keeps itself. -/
def nav_retry : NavDir → NavDir
  | .first_file => .next_file
  | .last_file => .prev_file
  | d => d

/-- Translation of the retry loop of `next_image` (viewer.c lines 507-541):
the `do`-`while` that advances a candidate and attempts `fetcher_open`
until an open succeeds or the list returns the exhaustion sentinel.  The
`fuel` argument bounds the number of retries so the loop is a total
function; every theorem below holds for every fuel. -/
def next_image_loop (lst : ImageList) (opens : ℕ → Bool) :
    ℕ → NavDir → ℕ → Option ℕ
  | 0, dir, index =>
      match nav_candidate lst dir index with
      | none => none
      | some j => if opens j then some j else none
  | fuel + 1, dir, index =>
      match nav_candidate lst dir index with
      | none => none
      | some j =>
          if opens j then some j
          else next_image_loop lst opens fuel (nav_retry dir) j

/-- The `while` loop of `skip_image` (viewer.c lines 489-500), on an
already-computed candidate. -/
def skip_image_loop (lst : ImageList) (opens : ℕ → Bool) :
    ℕ → Option ℕ → Option ℕ
  | _, none => none
  | 0, some j => if opens j then some j else none
  | fuel + 1, some j =>
      if opens j then some j
      else skip_image_loop lst opens fuel (lst.skip j)

/-- Translation of `skip_image` (viewer.c lines 489-500): start from
`image_list_skip(current)` and retry with `image_list_skip` until an open
succeeds or the sentinel is returned. -/
def skip_image (lst : ImageList) (opens : ℕ → Bool) (fuel current : ℕ) :
    Option ℕ :=
  skip_image_loop lst opens fuel (lst.skip current)

/-- The retry policy as the spec words it: starting from a candidate,
repeatedly attempt to open it, advancing with one fixed continuation on
each failure, until an open succeeds or the sentinel appears. -/
def retry_open (cont : ℕ → Option ℕ) (opens : ℕ → Bool) :
    ℕ → Option ℕ → Option ℕ
  | _, none => none
  | 0, some j => if opens j then some j else none
  | fuel + 1, some j =>
      if opens j then some j else retry_open cont opens fuel (cont j)

/-- One frame of an image (`struct image_frame`): pixmap size and display
duration in milliseconds. -/
structure ImgFrame where
  width : ℕ
  height : ℕ
  duration : ℕ
deriving DecidableEq

/-- An image owned by the fetcher: its frames (`num_frames` is the length
of the list). -/
structure Image where
  frames : List ImgFrame
deriving DecidableEq

/-- Translation of `animation_ctl` (viewer.c lines 413-429): the resulting
`ctx.animation_enable` flag and the `itimerspec` value (seconds,
nanoseconds) passed to `timerfd_settime`.  Enabling arms the timer only
when the image has more than one frame and the current frame's duration is
nonzero; otherwise the interval stays zero (disarmed). -/
def animation_ctl (enable : Bool) (img : Image) (frame : ℕ) :
    Bool × ℕ × ℕ :=
  if enable then
    let duration := (img.frames.getD frame ⟨0, 0, 0⟩).duration
    if 1 < img.frames.length ∧ duration ≠ 0 then
      (true, duration / 1000, duration % 1000 * 1000000)
    else
      (false, 0, 0)
  else
    (false, 0, 0)

/-- Observable side effects of `next_frame`: the overlay frame-position
text (current frame number, total), the overlay image-size text (width,
height), and whether a redraw was requested. -/
structure FrameFx where
  frame_text : Option (ℕ × ℕ)
  size_text : Option (ℕ × ℕ)
  redraw : Bool
deriving DecidableEq

/-- Translation of `next_frame` (viewer.c lines 556-577): advance the frame
index with wraparound; only when the index actually changes, store it,
update the two overlay texts and request a redraw. -/
def next_frame (forward : Bool) (img : Image) (ctx : Viewer) :
    Viewer × FrameFx :=
  let index : ℕ :=
    if forward then
      if img.frames.length ≤ ctx.frame + 1 then 0 else ctx.frame + 1
    else
      if ctx.frame = 0 then img.frames.length - 1 else ctx.frame - 1
  if index ≠ ctx.frame then
    let fr := img.frames.getD index ⟨0, 0, 0⟩
    ({ ctx with frame := index },
      ⟨some (index + 1, img.frames.length), some (fr.width, fr.height), true⟩)
  else
    (ctx, ⟨none, none, false⟩)

/-- Per-axis placement rule of an anchor, as the spec decomposes the nine
anchors: start edge, end edge, or centered. -/
inductive AxisRule where
  | startEdge
  | endEdge
  | centered
deriving DecidableEq

/-- Horizontal class of each anchor per the spec's decomposition
(left column anchors are `start`, right column `end`, the rest centered). -/
def anchor_x : ViewPos → AxisRule
  | .left | .top_left | .bottom_left => .startEdge
  | .right | .top_right | .bottom_right => .endEdge
  | .top | .center | .bottom => .centered

/-- Vertical class of each anchor per the spec's decomposition
(top row anchors are `start`, bottom row `end`, the rest centered). -/
def anchor_y : ViewPos → AxisRule
  | .top | .top_left | .top_right => .startEdge
  | .bottom | .bottom_left | .bottom_right => .endEdge
  | .center | .left | .right => .centered

/-- The spec's per-axis placement property for one axis: coordinate `0` on
a start axis, window minus scaled image size on an end axis, and half of
the remaining space on a centered axis.  The coordinate is an integer, so
"half of the remaining space" is stated exactly up to the sub-pixel
rounding of integer coordinates: twice the coordinate differs from the
remaining space by at most one. -/
def axis_rule_ok (r : AxisRule) (wnd img x : ℤ) : Prop :=
  match r with
  | .startEdge => x = 0
  | .endEdge => x = wnd - img
  | .centered => |2 * x - (wnd - img)| ≤ 1

/-- A move-step parameter `move_image` rejects: present but either
non-numeric or a number outside `[1, 1000]`. -/
def invalid_move_param : Param → Prop
  | .null => False
  | .number n => ¬(0 < n ∧ n ≤ 1000)
  | _ => True

/-- A zoom parameter `zoom_image` rejects: neither a policy name, nor
empty/missing, nor a nonzero percent in `(-1000, 1000)`. -/
def invalid_zoom_param : Param → Prop
  | .number n => n = 0 ∨ n ≤ -1000 ∨ 1000 ≤ n
  | .garbage => True
  | _ => False

/-- A scale parameter `scale_image` rejects: present, nonempty and not a
policy name. -/
def invalid_scale_param : Param → Prop
  | .number _ => True
  | .garbage => True
  | _ => False

/-- A concrete four-entry image list used to instantiate the navigation
theorems on explicit data. -/
def sample_list : ImageList where
  first := some 0
  last := some 3
  next_file := fun i => if i < 3 then some (i + 1) else none
  prev_file := fun i => if 0 < i then some (i - 1) else none
  next_dir := fun _ => none
  prev_dir := fun _ => none
  rand_file := fun _ => none
  skip := fun i => if i < 3 then some (i + 1) else none

/-- A concrete open oracle for `sample_list`: only entry 2 decodes. -/
def sample_opens : ℕ → Bool := fun i => i == 2

/-- Projection fact: `fixup_position` changes only the position. -/
theorem fixup_position_scale (force : Bool) (env : Env) (ctx : Viewer) :
    (fixup_position force env ctx).scale = ctx.scale := rfl

/-- Projection fact: `fixup_position` leaves the stored policy alone. -/
theorem fixup_position_scale_init (force : Bool) (env : Env) (ctx : Viewer) :
    (fixup_position force env ctx).scale_init = ctx.scale_init := rfl

/-- Projection fact: the scale stored by `set_scale` is `scale_for`. -/
theorem set_scale_scale (env : Env) (sc : FixedScale) (ctx : Viewer) :
    (set_scale env sc ctx).scale = scale_for sc env := rfl

/-- Truncation toward zero preserves nonnegativity. -/
theorem truncQ_nonneg {q : ℚ} (h : 0 ≤ q) : 0 ≤ truncQ q := by
  unfold truncQ
  rw [if_pos h]
  exact Int.floor_nonneg.mpr h

/-- Truncation toward zero moves a rational by less than one. -/
theorem truncQ_sub_abs_lt (q : ℚ) : |(truncQ q : ℚ) - q| < 1 := by
  unfold truncQ
  split_ifs with h
  · rw [abs_lt]
    refine ⟨?_, ?_⟩
    · have := Int.sub_one_lt_floor q
      linarith
    · have := Int.floor_le q
      linarith
  · rw [abs_lt]
    refine ⟨?_, ?_⟩
    · have := Int.le_ceil q
      linarith
    · have := Int.ceil_lt_add_one q
      linarith

/-- Restoring a pivot after truncating the stored coordinate lands within
one unit of the original value. -/
theorem trunc_restore (a b : ℚ) : |((truncQ (a - b) : ℚ)) + b - a| < 1 := by
  have h := truncQ_sub_abs_lt (a - b)
  have e : ((truncQ (a - b) : ℚ)) + b - a = (truncQ (a - b) : ℚ) - (a - b) := by
    ring
  rw [e]
  exact h

/-- C-style division by two agrees with Euclidean division on nonnegative
numerators. -/
theorem tdiv_two_eq {a : ℤ} (h : 0 ≤ a) : Int.tdiv a 2 = a / 2 :=
  Int.tdiv_eq_ediv h (by norm_num)

set_option maxHeartbeats 1000000 in
/-- C3: for every anchor (all 9), both values of fixedMode, and all
window/image size combinations including image larger than window, a forced
position fixup places the image rectangle per the anchor's per-axis rule:
coordinate 0 on a start axis, window minus scaled-image size on an end
axis, and half of the remaining space (up to the sub-pixel rounding of the
integer coordinate) otherwise. -/
theorem forced_fixup_places_by_anchor (env : Env) (ctx : Viewer)
    (hs : 0 ≤ ctx.scale) :
    axis_rule_ok (anchor_x ctx.position) (env.wndW : ℤ)
      (truncQ (ctx.scale * env.pmW)) ((fixup_position true env ctx).img_x) ∧
    axis_rule_ok (anchor_y ctx.position) (env.wndH : ℤ)
      (truncQ (ctx.scale * env.pmH)) ((fixup_position true env ctx).img_y) := by
  obtain ⟨x, y, w, h, fr, fx, si, kz, pos, sc⟩ := ctx
  replace hs : (0:ℚ) ≤ sc := hs
  have hW : (0:ℤ) ≤ (env.wndW : ℤ) := Int.natCast_nonneg _
  have hH : (0:ℤ) ≤ (env.wndH : ℤ) := Int.natCast_nonneg _
  have hIW : (0:ℤ) ≤ truncQ (sc * env.pmW) :=
    truncQ_nonneg (mul_nonneg hs (Nat.cast_nonneg _))
  have hIH : (0:ℤ) ≤ truncQ (sc * env.pmH) :=
    truncQ_nonneg (mul_nonneg hs (Nat.cast_nonneg _))
  cases pos <;> cases fx <;>
    (constructor <;>
      (simp only [fixup_position, anchor_x, anchor_y, axis_rule_ok,
        eq_self_iff_true, true_or, true_and, Bool.false_eq_true, false_and,
        false_or, if_true, if_false,
        tdiv_two_eq hW, tdiv_two_eq hH, tdiv_two_eq hIW, tdiv_two_eq hIH] <;>
       first
         | (rw [abs_le]; split_ifs <;> omega)
         | (split_ifs <;> omega)
         | omega))

/-- C6: for every window size and current-frame size, the scales produced
by the named policies satisfy optimal ≤ 1.0, optimal = min(fit, 1.0),
fill ≥ fit, and real = 1.0 exactly. -/
theorem scale_policy_relations (env : Env) (ctx : Viewer) :
    (set_scale env .fit_optimal ctx).scale ≤ 1 ∧
    (set_scale env .fit_optimal ctx).scale
      = min ((set_scale env .fit_window ctx).scale) 1 ∧
    (set_scale env .fit_window ctx).scale
      ≤ (set_scale env .fill_window ctx).scale ∧
    (set_scale env .real_size ctx).scale = 1 := by
  simp only [set_scale_scale, scale_for]
  refine ⟨?_, ?_, ?_, trivial⟩
  · split_ifs with h
    · exact le_refl 1
    · exact le_of_not_lt h
  · rcases le_or_lt (min (1 / ((env.pmW : ℚ) / (env.wndW : ℚ)))
        (1 / ((env.pmH : ℚ) / (env.wndH : ℚ)))) 1 with h | h
    · rw [if_neg (not_lt.2 h), min_eq_left h]
    · rw [if_pos h, min_eq_right h.le]
  · exact le_trans (min_le_left _ _) (le_max_left _ _)

/-- C8: from every starting scale policy, applying `scale_image` with an
absent parameter exactly 6 times returns the stored scale policy to its
original value: the toggle is cyclic with period 6 over the ordered
enumeration optimal, fit, width, height, fill, real. -/
theorem scale_toggle_period_six (env : Env) (ctx : Viewer) :
    ((fun c => (scale_image env .null c).1)^[6] ctx).scale_init
      = ctx.scale_init := by
  have proj : ∀ c : Viewer,
      ((scale_image env .null c).1).scale_init = c.scale_init.next :=
    fun c => rfl
  have key : ∀ (n : ℕ) (c : Viewer),
      ((fun c => (scale_image env .null c).1)^[n] c).scale_init
        = FixedScale.next^[n] c.scale_init := by
    intro n
    induction n with
    | zero => intro c; rfl
    | succ k ih =>
        intro c
        simp only [Function.iterate_succ_apply]
        rw [ih]
        simp only [proj]
  rw [key]
  cases ctx.scale_init <;> rfl

/-- C1 counterexample: the claim `0 < scale ≤ 100.0` after any successful
scale-policy application fails: `set_scale` never caps at `MAX_SCALE`, so
the `fit` policy on a 2000x2000 window with a 10x10 image stores scale 200,
exceeding 100. -/
theorem scale_invariant_counterexample :
    100 < (set_scale ⟨2000, 2000, 10, 10⟩ .fit_window
      ⟨0, 0, 10, 10, 0, false, .fit_optimal, false, .center, 1⟩).scale := by
  norm_num [set_scale_scale, scale_for]

/-- C1 (amended): a successful percentage zoom starting from a scale in
`(0, 100]` on a nonempty frame yields a scale in `(0, 100]`; a scale-policy
application with positive window and image dimensions yields a positive
scale, but is not bounded by 100 (fit/width/height/fill are uncapped). -/
theorem scale_bounds_amended (env : Env) (ctx : Viewer) :
    (∀ n : ℤ, n ≠ 0 → -1000 < n → n < 1000 →
      0 < ctx.scale → ctx.scale ≤ 100 → 0 < env.pmW → 0 < env.pmH →
      0 < ((zoom_image env (.number n) ctx).1).scale ∧
        ((zoom_image env (.number n) ctx).1).scale ≤ 100) ∧
    (∀ sc : FixedScale, 0 < env.wndW → 0 < env.wndH →
      0 < env.pmW → 0 < env.pmH → 0 < (set_scale env sc ctx).scale) := by
  constructor
  · intro n hn0 hlo hhi hs hs100 hpw hph
    have hz : ((zoom_image env (.number n) ctx).1).scale
        = (zoom_apply env n ctx).scale := by
      simp only [zoom_image]
      rw [if_pos ⟨hn0, hlo, hhi⟩]
      exact fixup_position_scale _ _ _
    rw [hz]
    simp only [zoom_apply]
    rcases lt_trichotomy n 0 with hneg | h0 | hpos
    · rw [if_neg (not_lt.2 hneg.le)]
      have hwq : (0:ℚ) < (env.pmW : ℚ) := by exact_mod_cast hpw
      have hhq : (0:ℚ) < (env.pmH : ℚ) := by exact_mod_cast hph
      have h1w : (1:ℚ) ≤ (env.pmW : ℚ) := by exact_mod_cast hpw
      have h1h : (1:ℚ) ≤ (env.pmH : ℚ) := by exact_mod_cast hph
      have hsw : (0:ℚ) < 10 / (env.pmW : ℚ) := by positivity
      have hminpos : (0:ℚ) < max (10 / (env.pmW : ℚ)) (10 / (env.pmH : ℚ)) :=
        lt_of_lt_of_le hsw (le_max_left _ _)
      have hmin100 : max (10 / (env.pmW : ℚ)) (10 / (env.pmH : ℚ)) ≤ 100 := by
        have hA : 10 / (env.pmW : ℚ) ≤ 10 := div_le_self (by norm_num) h1w
        have hB : 10 / (env.pmH : ℚ) ≤ 10 := div_le_self (by norm_num) h1h
        have := max_le hA hB
        linarith
      have hnq : (n:ℚ) ≤ 0 := by exact_mod_cast hneg.le
      have hstep : ctx.scale / 100 * (n:ℚ) ≤ 0 :=
        mul_nonpos_of_nonneg_of_nonpos (by linarith) hnq
      split_ifs with hclamp
      · exact ⟨hminpos, hmin100⟩
      · refine ⟨lt_of_lt_of_le hminpos (not_lt.1 hclamp), ?_⟩
        linarith
    · exact absurd h0 hn0
    · rw [if_pos hpos]
      have hnq : (1:ℚ) ≤ (n:ℚ) := by exact_mod_cast hpos
      have hstep : 0 < ctx.scale / 100 * (n:ℚ) :=
        mul_pos (by linarith) (by linarith)
      split_ifs with hcap
      · exact ⟨by norm_num, le_refl 100⟩
      · exact ⟨by linarith, by linarith [not_lt.1 hcap]⟩
  · intro sc hww hwh hpw hph
    rw [set_scale_scale]
    have hwq : (0:ℚ) < (env.pmW : ℚ) / (env.wndW : ℚ) :=
      div_pos (by exact_mod_cast hpw) (by exact_mod_cast hww)
    have hhq : (0:ℚ) < (env.pmH : ℚ) / (env.wndH : ℚ) :=
      div_pos (by exact_mod_cast hph) (by exact_mod_cast hwh)
    have hsw : (0:ℚ) < 1 / ((env.pmW : ℚ) / (env.wndW : ℚ)) := by positivity
    have hsh : (0:ℚ) < 1 / ((env.pmH : ℚ) / (env.wndH : ℚ)) := by positivity
    cases sc <;> simp only [scale_for]
    · split_ifs with h
      · norm_num
      · exact lt_min hsw hsh
    · exact lt_min hsw hsh
    · exact hsw
    · exact hsh
    · exact lt_of_lt_of_le hsw (le_max_left _ _)
    · norm_num

/-- C1 witness: the amended bounds hold at a +50% zoom from scale 1 and at
a `fit` application on a 100x100 window with a 20x20 frame. -/
theorem scale_bounds_amended_holds :
    (0 < ((zoom_image ⟨100, 100, 20, 20⟩ (.number 50)
        ⟨0, 0, 20, 20, 0, false, .fit_optimal, false, .center, 1⟩).1).scale ∧
      ((zoom_image ⟨100, 100, 20, 20⟩ (.number 50)
        ⟨0, 0, 20, 20, 0, false, .fit_optimal, false, .center, 1⟩).1).scale
        ≤ 100) ∧
    0 < (set_scale ⟨100, 100, 20, 20⟩ .fit_window
        ⟨0, 0, 20, 20, 0, false, .fit_optimal, false, .center, 1⟩).scale := by
  constructor
  · exact (scale_bounds_amended ⟨100, 100, 20, 20⟩
      ⟨0, 0, 20, 20, 0, false, .fit_optimal, false, .center, 1⟩).1 50
      (by decide) (by decide) (by decide) (by norm_num) (by norm_num)
      (by decide) (by decide)
  · exact (scale_bounds_amended ⟨100, 100, 20, 20⟩
      ⟨0, 0, 20, 20, 0, false, .fit_optimal, false, .center, 1⟩).2 .fit_window
      (by decide) (by decide) (by decide) (by decide)

/-- C2 counterexample: zoom is not pivot-preserving for every start state:
with fixed mode on, window 100x100, image 20x20, scale 1 and the image at
the origin, a -50% zoom leaves image point 50 under the window center
before the call, but the final non-forced fixup re-centers the shrunken
image, and image point 10 is under the window center afterwards — a 40
image-pixel discrepancy, far beyond floating-point tolerance. -/
theorem zoom_pivot_counterexample :
    center_img_x ⟨100, 100, 20, 20⟩
        ((zoom_image ⟨100, 100, 20, 20⟩ (.number (-50))
          ⟨0, 0, 20, 20, 0, true, .fit_optimal, false, .center, 1⟩).1) = 10 ∧
    center_img_x ⟨100, 100, 20, 20⟩
        ⟨0, 0, 20, 20, 0, true, .fit_optimal, false, .center, 1⟩ = 50 := by
  constructor
  · norm_num [zoom_image, zoom_apply, center_img_x, center_img_y,
      fixup_position, truncQ, Int.tdiv]
  · norm_num [center_img_x]

/-- C2 (amended): zoom is pivot-preserving up to the integer truncation of
the stored position, provided the final non-forced fixup leaves the
recomputed position unchanged (in particular, fixed-mode re-anchoring and
the off-window clamps do not fire): for every starting state with positive
scale and valid percent, the pre-zoom image point under the window center
maps back to within one pixel of the window center on each axis. -/
theorem zoom_pivot_within_one_pixel (env : Env) (ctx : Viewer) (n : ℤ)
    (hn0 : n ≠ 0) (hlo : -1000 < n) (hhi : n < 1000) (hs : 0 < ctx.scale)
    (hfix : fixup_position false env (zoom_apply env n ctx)
      = zoom_apply env n ctx) :
    |(((zoom_image env (.number n) ctx).1).img_x : ℚ)
        + center_img_x env ctx * ((zoom_image env (.number n) ctx).1).scale
        - (env.wndW : ℚ) / 2| < 1 ∧
    |(((zoom_image env (.number n) ctx).1).img_y : ℚ)
        + center_img_y env ctx * ((zoom_image env (.number n) ctx).1).scale
        - (env.wndH : ℚ) / 2| < 1 := by
  have hz : (zoom_image env (.number n) ctx).1 = zoom_apply env n ctx := by
    simp only [zoom_image]
    rw [if_pos ⟨hn0, hlo, hhi⟩]
    exact hfix
  rw [hz]
  simp only [zoom_apply]
  exact ⟨trunc_restore _ _, trunc_restore _ _⟩

/-- C2 witness: the amended pivot bound holds for a +100% zoom on a
100x100 window, 20x20 frame, scale 1, image at (40, 40), fixed mode off
(the fixup does not move the recomputed position there). -/
theorem zoom_pivot_within_one_pixel_holds :
    |(((zoom_image ⟨100, 100, 20, 20⟩ (.number 100)
          ⟨40, 40, 20, 20, 0, false, .fit_optimal, false, .center, 1⟩).1).img_x
        : ℚ)
        + center_img_x ⟨100, 100, 20, 20⟩
            ⟨40, 40, 20, 20, 0, false, .fit_optimal, false, .center, 1⟩
          * ((zoom_image ⟨100, 100, 20, 20⟩ (.number 100)
              ⟨40, 40, 20, 20, 0, false, .fit_optimal, false, .center,
                1⟩).1).scale
        - ((100 : ℕ) : ℚ) / 2| < 1 ∧
    |(((zoom_image ⟨100, 100, 20, 20⟩ (.number 100)
          ⟨40, 40, 20, 20, 0, false, .fit_optimal, false, .center, 1⟩).1).img_y
        : ℚ)
        + center_img_y ⟨100, 100, 20, 20⟩
            ⟨40, 40, 20, 20, 0, false, .fit_optimal, false, .center, 1⟩
          * ((zoom_image ⟨100, 100, 20, 20⟩ (.number 100)
              ⟨40, 40, 20, 20, 0, false, .fit_optimal, false, .center,
                1⟩).1).scale
        - ((100 : ℕ) : ℚ) / 2| < 1 := by
  have hza : zoom_apply ⟨100, 100, 20, 20⟩ 100
      ⟨40, 40, 20, 20, 0, false, .fit_optimal, false, .center, 1⟩
      = ⟨30, 30, 20, 20, 0, false, .fit_optimal, false, .center, 2⟩ := by
    norm_num [zoom_apply, center_img_x, center_img_y, truncQ]
  refine zoom_pivot_within_one_pixel ⟨100, 100, 20, 20⟩
    ⟨40, 40, 20, 20, 0, false, .fit_optimal, false, .center, 1⟩ 100
    (by decide) (by decide) (by decide) (by norm_num) ?_
  rw [hza]
  norm_num [fixup_position, truncQ, Int.tdiv]

/-- C4 counterexample: an invalid (non-numeric) move step is reported on
the diagnostic channel, but the operation does not abort: the move
proceeds with the default 10% step, changing the position from 0 to 100 on
a 1000-pixel-wide window. -/
theorem invalid_param_counterexample :
    (move_image ⟨1000, 1000, 20, 20⟩ true true .garbage
      ⟨0, 0, 20, 20, 0, false, .fit_optimal, false, .center, 1⟩).2 = true ∧
    ((move_image ⟨1000, 1000, 20, 20⟩ true true .garbage
      ⟨0, 0, 20, 20, 0, false, .fit_optimal, false, .center, 1⟩).1).img_x
      = 100 := by
  constructor
  · norm_num [move_image, move_step_err]
  · norm_num [move_image, move_step_err, fixup_position, truncQ, Int.tdiv]

/-- C4 (amended): invalid zoom specs and invalid scale names are reported
(second component `true`) and abort with the viewer state unchanged; an
invalid move step is reported, but the move proceeds exactly as with an
absent parameter (the default 10% step). -/
theorem invalid_param_handling (env : Env) (ctx : Viewer) :
    (∀ (hz ps : Bool) (p : Param), invalid_move_param p →
      move_image env hz ps p ctx
        = ((move_image env hz ps .null ctx).1, true)) ∧
    (∀ p : Param, invalid_zoom_param p → zoom_image env p ctx = (ctx, true)) ∧
    (∀ p : Param, invalid_scale_param p →
      scale_image env p ctx = (ctx, true)) := by
  refine ⟨?_, ?_, ?_⟩
  · intro hz ps p hp
    cases p with
    | null => exact hp.elim
    | number n =>
        have hp' : ¬(0 < n ∧ n ≤ 1000) := hp
        simp [move_image, move_step_err, if_neg hp']
    | emptyStr => simp [move_image, move_step_err]
    | policy sc => simp [move_image, move_step_err]
    | garbage => simp [move_image, move_step_err]
  · intro p hp
    cases p with
    | null => exact hp.elim
    | emptyStr => exact hp.elim
    | policy sc => exact hp.elim
    | number n =>
        simp only [zoom_image]
        rw [if_neg]
        intro hv
        rcases hp with h | h | h <;> omega
    | garbage => rfl
  · intro p hp
    cases p with
    | null => exact hp.elim
    | emptyStr => exact hp.elim
    | policy sc => exact hp.elim
    | number n => rfl
    | garbage => rfl

/-- C4 witness: a garbage zoom parameter is reported and leaves the state
unchanged. -/
theorem invalid_param_handling_holds :
    zoom_image ⟨100, 100, 20, 20⟩ .garbage
      ⟨0, 0, 20, 20, 0, false, .fit_optimal, false, .center, 1⟩
      = (⟨0, 0, 20, 20, 0, false, .fit_optimal, false, .center, 1⟩, true) :=
  (invalid_param_handling ⟨100, 100, 20, 20⟩
    ⟨0, 0, 20, 20, 0, false, .fit_optimal, false, .center, 1⟩).2.1 .garbage
    trivial

/-- Retry loop equivalence for the `next_file` direction: the loop tests
candidates along the `image_list_next_file` chain. -/
theorem next_loop_next (lst : ImageList) (opens : ℕ → Bool) :
    ∀ (fuel idx : ℕ), next_image_loop lst opens fuel .next_file idx
      = retry_open lst.next_file opens fuel (lst.next_file idx) := by
  intro fuel
  induction fuel with
  | zero =>
      intro idx
      cases h : lst.next_file idx <;>
        simp [next_image_loop, retry_open, nav_candidate, h]
  | succ k ih =>
      intro idx
      cases h : lst.next_file idx with
      | none => simp [next_image_loop, retry_open, nav_candidate, h]
      | some j =>
          cases hop : opens j <;>
            simp [next_image_loop, retry_open, nav_candidate, nav_retry,
              h, hop, ih]

/-- Retry loop equivalence for the `prev_file` direction. -/
theorem next_loop_prev (lst : ImageList) (opens : ℕ → Bool) :
    ∀ (fuel idx : ℕ), next_image_loop lst opens fuel .prev_file idx
      = retry_open lst.prev_file opens fuel (lst.prev_file idx) := by
  intro fuel
  induction fuel with
  | zero =>
      intro idx
      cases h : lst.prev_file idx <;>
        simp [next_image_loop, retry_open, nav_candidate, h]
  | succ k ih =>
      intro idx
      cases h : lst.prev_file idx with
      | none => simp [next_image_loop, retry_open, nav_candidate, h]
      | some j =>
          cases hop : opens j <;>
            simp [next_image_loop, retry_open, nav_candidate, nav_retry,
              h, hop, ih]

/-- The `skip_image` while-loop is the retry policy along
`image_list_skip`. -/
theorem skip_loop_eq (lst : ImageList) (opens : ℕ → Bool) :
    ∀ (fuel : ℕ) (c : Option ℕ),
      skip_image_loop lst opens fuel c = retry_open lst.skip opens fuel c := by
  intro fuel
  induction fuel with
  | zero =>
      intro c
      cases c <;> simp [skip_image_loop, retry_open]
  | succ k ih =>
      intro c
      cases c with
      | none => simp [skip_image_loop, retry_open]
      | some j =>
          cases hop : opens j <;> simp [skip_image_loop, retry_open, hop, ih]

/-- A successful retry result is an index that actually opened. -/
theorem retry_open_opens (opens : ℕ → Bool) (cont : ℕ → Option ℕ) :
    ∀ (fuel : ℕ) (c : Option ℕ) (j : ℕ),
      retry_open cont opens fuel c = some j → opens j = true := by
  intro fuel
  induction fuel with
  | zero =>
      intro c j h
      cases c with
      | none => simp [retry_open] at h
      | some i =>
          cases hop : opens i with
          | true =>
              rw [retry_open, if_pos hop] at h
              cases h
              exact hop
          | false => rw [retry_open, if_neg (by simp [hop])] at h; cases h
  | succ k ih =>
      intro c j h
      cases c with
      | none => simp [retry_open] at h
      | some i =>
          cases hop : opens i with
          | true =>
              rw [retry_open, if_pos hop] at h
              cases h
              exact hop
          | false =>
              rw [retry_open, if_neg (by simp [hop])] at h
              exact ih _ _ h

/-- C5: during navigation the retry continuation is fixed by the direction
family: first-file and next-file navigation retry forward along
`image_list_next_file` (first-file from the list head), last-file and
previous-file navigation retry backward along `image_list_prev_file`
(last-file from the list tail), and skip-current retries along
`image_list_skip` regardless of how the current image was reached; in
every case the loop returns the first candidate that opens and returns the
sentinel when the list is exhausted (a returned index always opened). -/
theorem navigation_retry_families (lst : ImageList) (opens : ℕ → Bool)
    (fuel idx : ℕ) :
    next_image_loop lst opens fuel .next_file idx
      = retry_open lst.next_file opens fuel (lst.next_file idx) ∧
    next_image_loop lst opens fuel .prev_file idx
      = retry_open lst.prev_file opens fuel (lst.prev_file idx) ∧
    next_image_loop lst opens fuel .first_file idx
      = retry_open lst.next_file opens fuel lst.first ∧
    next_image_loop lst opens fuel .last_file idx
      = retry_open lst.prev_file opens fuel lst.last ∧
    skip_image lst opens fuel idx
      = retry_open lst.skip opens fuel (lst.skip idx) ∧
    (∀ (cont : ℕ → Option ℕ) (c : Option ℕ) (j : ℕ),
      retry_open cont opens fuel c = some j → opens j = true) := by
  refine ⟨next_loop_next lst opens fuel idx, next_loop_prev lst opens fuel idx,
    ?_, ?_, skip_loop_eq lst opens fuel (lst.skip idx),
    fun cont c j h => retry_open_opens opens cont fuel c j h⟩
  · cases fuel with
    | zero =>
        cases h : lst.first <;>
          simp [next_image_loop, retry_open, nav_candidate, h]
    | succ k =>
        cases h : lst.first with
        | none => simp [next_image_loop, retry_open, nav_candidate, h]
        | some j =>
            cases hop : opens j <;>
              simp [next_image_loop, retry_open, nav_candidate, nav_retry,
                h, hop, next_loop_next lst opens k j]
  · cases fuel with
    | zero =>
        cases h : lst.last <;>
          simp [next_image_loop, retry_open, nav_candidate, h]
    | succ k =>
        cases h : lst.last with
        | none => simp [next_image_loop, retry_open, nav_candidate, h]
        | some j =>
            cases hop : opens j <;>
              simp [next_image_loop, retry_open, nav_candidate, nav_retry,
                h, hop, next_loop_prev lst opens k j]

/-- C5 witness: on the concrete four-entry list where only entry 2 decodes,
the retry loop starting from entry 0 returns entry 2, and entry 2 indeed
opens. -/
theorem navigation_retry_families_holds : sample_opens 2 = true :=
  (navigation_retry_families sample_list sample_opens 5 0).2.2.2.2.2
    sample_list.next_file (some 0) 2 (by decide)

/-- Projection fact: the scale stored by a percentage zoom is the scale
computed by `zoom_apply` (the final non-forced fixup never touches it). -/
theorem zoom_image_number_scale (env : Env) (ctx : Viewer) (n : ℤ)
    (hn0 : n ≠ 0) (hlo : -1000 < n) (hhi : n < 1000) :
    ((zoom_image env (.number n) ctx).1).scale
      = (zoom_apply env n ctx).scale := by
  simp only [zoom_image]
  rw [if_pos ⟨hn0, hlo, hhi⟩]
  exact fixup_position_scale _ _ _

/-- One +900% zoom multiplies the scale by 10 and clamps at 100. -/
theorem zoom_step_900 (env : Env) (ctx : Viewer) :
    ((zoom_image env (.number 900) ctx).1).scale
      = if 100 < 10 * ctx.scale then 100 else 10 * ctx.scale := by
  rw [zoom_image_number_scale env ctx 900 (by decide) (by decide) (by decide)]
  simp only [zoom_apply]
  rw [if_pos (by decide : (0:ℤ) < 900)]
  have e : ctx.scale + ctx.scale / 100 * ((900 : ℤ) : ℚ) = 10 * ctx.scale := by
    push_cast
    ring
  rw [e]

/-- Closed form for iterated +900% zooms from a valid scale. -/
theorem zoom_iter_900 (env : Env) :
    ∀ (m : ℕ) (ctx : Viewer), 0 < ctx.scale → ctx.scale ≤ 100 →
      (((fun c => (zoom_image env (.number 900) c).1)^[m] ctx)).scale
        = if 100 < 10 ^ m * ctx.scale then 100 else 10 ^ m * ctx.scale := by
  intro m
  induction m with
  | zero =>
      intro ctx h h100
      rw [Function.iterate_zero_apply, pow_zero, one_mul,
        if_neg (not_lt.2 h100)]
  | succ k ih =>
      intro ctx h h100
      rw [Function.iterate_succ_apply]
      have hstep : ((fun c => (zoom_image env (.number 900) c).1) ctx).scale
          = if 100 < 10 * ctx.scale then 100 else 10 * ctx.scale :=
        zoom_step_900 env ctx
      have hpos : 0 < ((fun c => (zoom_image env (.number 900) c).1) ctx).scale := by
        rw [hstep]
        split_ifs
        · norm_num
        · linarith
      have hle : ((fun c => (zoom_image env (.number 900) c).1) ctx).scale
          ≤ 100 := by
        rw [hstep]
        split_ifs with hc
        · norm_num
        · exact le_of_not_lt hc
      rw [ih _ hpos hle, hstep]
      by_cases hc : 100 < 10 * ctx.scale
      · rw [if_pos hc]
        have h1 : (1:ℚ) ≤ 10 ^ k := one_le_pow₀ (by norm_num)
        have h2 : (100:ℚ) ≤ 10 ^ k * 100 := by nlinarith
        have h3 : 10 * ctx.scale ≤ 10 ^ (k + 1) * ctx.scale := by
          have h4 : (10:ℚ) ≤ 10 ^ (k + 1) := by
            calc (10:ℚ) = 10 * 1 := by norm_num
            _ ≤ 10 * 10 ^ k := by nlinarith
            _ = 10 ^ (k + 1) := by rw [pow_succ]; ring
          nlinarith
        have hLHS : (if 100 < (10:ℚ) ^ k * 100 then (100:ℚ)
            else 10 ^ k * 100) = 100 := by
          split_ifs with hb
          · rfl
          · linarith [not_lt.1 hb]
        rw [hLHS, if_pos (by linarith : (100:ℚ) < 10 ^ (k + 1) * ctx.scale)]
      · rw [if_neg hc]
        have e : (10:ℚ) ^ k * (10 * ctx.scale) = 10 ^ (k + 1) * ctx.scale := by
          rw [pow_succ]
          ring
        rw [e]

/-- One -900% zoom on a 20x20 frame clamps the scale to the minimum 1/2. -/
theorem zoom_step_neg900 (env : Env) (ctx : Viewer) (hw : env.pmW = 20)
    (hh : env.pmH = 20) (hs : 0 < ctx.scale) :
    ((zoom_image env (.number (-900)) ctx).1).scale = 1 / 2 := by
  rw [zoom_image_number_scale env ctx (-900) (by decide) (by decide)
    (by decide)]
  simp only [zoom_apply]
  rw [if_neg (by decide : ¬(0:ℤ) < -900)]
  rw [hw, hh]
  have e : ctx.scale + ctx.scale / 100 * ((-900 : ℤ) : ℚ)
      = -8 * ctx.scale := by
    push_cast
    ring
  rw [e]
  have hmax : max ((10:ℚ) / ((20:ℕ):ℚ)) ((10:ℚ) / ((20:ℕ):ℚ)) = 1 / 2 := by
    norm_num
  rw [hmax, if_pos (by linarith : (-8:ℚ) * ctx.scale < 1 / 2)]

/-- C7: zoom clamping: from every valid starting scale, repeated
`zoom_image` calls with +900 percent converge to scale exactly 100.0, and
repeated -900 percent calls on a 20x20-pixel frame reach scale exactly 1/2
(the 10-pixel minimum over the 20-pixel dimension) after the first call
and stay there. -/
theorem zoom_convergence (env : Env) (ctx : Viewer)
    (hs : 0 < ctx.scale) (hs100 : ctx.scale ≤ 100) :
    (∃ k : ℕ, ∀ m : ℕ, k ≤ m →
      (((fun c => (zoom_image env (.number 900) c).1)^[m] ctx)).scale
        = 100) ∧
    (env.pmW = 20 → env.pmH = 20 → ∀ m : ℕ,
      (((fun c => (zoom_image env (.number (-900)) c).1)^[m + 1] ctx)).scale
        = 1 / 2) := by
  constructor
  · obtain ⟨k, hk⟩ := pow_unbounded_of_one_lt (100 / ctx.scale)
      (by norm_num : (1:ℚ) < 10)
    have hk' : 100 < 10 ^ k * ctx.scale := by
      rw [div_lt_iff hs] at hk
      linarith
    refine ⟨k, fun m hm => ?_⟩
    rw [zoom_iter_900 env m ctx hs hs100]
    have hpow : (10:ℚ) ^ k ≤ 10 ^ m :=
      pow_le_pow_right (by norm_num : (1:ℚ) ≤ 10) hm
    have : 10 ^ k * ctx.scale ≤ 10 ^ m * ctx.scale := by nlinarith
    rw [if_pos (by linarith)]
  · intro hw hh m
    induction m with
    | zero =>
        rw [zero_add, Function.iterate_one]
        exact zoom_step_neg900 env ctx hw hh hs
    | succ k ih =>
        rw [Function.iterate_succ_apply']
        have hpos : 0 < (((fun c =>
            (zoom_image env (.number (-900)) c).1)^[k + 1] ctx)).scale := by
          rw [ih]
          norm_num
        exact zoom_step_neg900 env _ hw hh hpos

/-- C7 witness: on a 20x20 frame starting from scale 1, the first -900%
zoom already reaches the clamped scale 1/2. -/
theorem zoom_convergence_holds :
    (((fun c => (zoom_image (⟨100, 100, 20, 20⟩ : Env) (.number (-900))
        c).1)^[0 + 1]
      ⟨0, 0, 20, 20, 0, false, .fit_optimal, false, .center, 1⟩)).scale
      = 1 / 2 :=
  (zoom_convergence ⟨100, 100, 20, 20⟩
    ⟨0, 0, 20, 20, 0, false, .fit_optimal, false, .center, 1⟩ (by norm_num)
    (by norm_num)).2 rfl rfl 0

/-- C9: whenever the current image has exactly one frame, enabling the
animation timer leaves it disarmed: the flag stays false and the interval
passed to `timerfd_settime` stays zero, regardless of the frame's stored
duration. -/
theorem single_frame_animation_disarmed (img : Image) (frame : ℕ)
    (h : img.frames.length = 1) :
    animation_ctl true img frame = (false, 0, 0) := by
  simp [animation_ctl, h]

/-- C9 witness: a one-frame image with nonzero duration 500 ms still leaves
the timer disarmed. -/
theorem single_frame_animation_disarmed_holds :
    animation_ctl true ⟨[⟨20, 20, 500⟩]⟩ 0 = (false, 0, 0) :=
  single_frame_animation_disarmed ⟨[⟨20, 20, 500⟩]⟩ 0 rfl

/-- C10: for an image with exactly one frame and frame index 0, next_frame
in either direction is a complete no-op: the state is unchanged, no
overlay text is produced and no redraw is requested. -/
theorem single_frame_next_frame_noop (img : Image) (ctx : Viewer)
    (h : img.frames.length = 1) (hf : ctx.frame = 0) (forward : Bool) :
    next_frame forward img ctx = (ctx, ⟨none, none, false⟩) := by
  cases forward <;> simp [next_frame, h, hf]

/-- C10 witness: stepping either way on a concrete one-frame image changes
nothing and produces no effects. -/
theorem single_frame_next_frame_noop_holds :
    next_frame true ⟨[⟨20, 20, 500⟩]⟩
        ⟨0, 0, 20, 20, 0, false, .fit_optimal, false, .center, 1⟩
      = (⟨0, 0, 20, 20, 0, false, .fit_optimal, false, .center, 1⟩,
          ⟨none, none, false⟩) ∧
    next_frame false ⟨[⟨20, 20, 500⟩]⟩
        ⟨0, 0, 20, 20, 0, false, .fit_optimal, false, .center, 1⟩
      = (⟨0, 0, 20, 20, 0, false, .fit_optimal, false, .center, 1⟩,
          ⟨none, none, false⟩) :=
  ⟨single_frame_next_frame_noop ⟨[⟨20, 20, 500⟩]⟩ _ rfl rfl true,
    single_frame_next_frame_noop ⟨[⟨20, 20, 500⟩]⟩ _ rfl rfl false⟩

/-- C3 witness: the per-axis anchor rule holds at a concrete forced fixup
with the centered anchor on a 100x100 window and a 30x30 frame at scale
1. -/
theorem forced_fixup_places_by_anchor_holds :
    axis_rule_ok (anchor_x ViewPos.center) ((100 : ℕ) : ℤ)
      (truncQ ((1 : ℚ) * ((30 : ℕ) : ℚ)))
      ((fixup_position true ⟨100, 100, 30, 30⟩
        ⟨0, 0, 30, 30, 0, false, .fit_optimal, false, .center, 1⟩).img_x) ∧
    axis_rule_ok (anchor_y ViewPos.center) ((100 : ℕ) : ℤ)
      (truncQ ((1 : ℚ) * ((30 : ℕ) : ℚ)))
      ((fixup_position true ⟨100, 100, 30, 30⟩
        ⟨0, 0, 30, 30, 0, false, .fit_optimal, false, .center, 1⟩).img_y) :=
  forced_fixup_places_by_anchor ⟨100, 100, 30, 30⟩
    ⟨0, 0, 30, 30, 0, false, .fit_optimal, false, .center, 1⟩ (by norm_num)
